import Mathlib

/-!
Shallow embedding of the repeer simulation program (`src/main.rs`).

Floating-point energies and reputation scores are modelled as rationals:
every arithmetic operation the program performs on them is an addition of
small integer-valued constants, which is exact in `f64`, so the rational
embedding is faithful for the properties considered here.

The randomized strategy's thread-local generator is modelled as a stream of
rational draws together with a cursor index: each call that samples the
generator reads the draw at the cursor and advances the cursor by one.
`rand`'s `gen::<f32>()` samples uniformly from the half-open interval
`[0, 1)`, so a "possible draw" is any value `d` with `0 ≤ d < 1`.
-/

/-- The four payoff constants of the game (`struct GameParams`). -/
structure GameParams where
  borrower_defect_payout : ℚ
  borrower_coop_payout : ℚ
  lender_defect_payout : ℚ
  lender_coop_payout : ℚ

/-- The constant `GP` of the program: payoffs 6, 3, -7, -1. -/
def GP : GameParams :=
  { borrower_defect_payout := 6
    borrower_coop_payout := 3
    lender_defect_payout := -7
    lender_coop_payout := -1 }

/-- Decision of a lender (`type BorrowerAction = bool` in the source). -/
abbrev BorrowerAction := Bool

def ACCEPT : BorrowerAction := true

def REJECT : BorrowerAction := false

/-- Decision of a borrower (`type LenderAction = bool` in the source). -/
abbrev LenderAction := Bool

def COOP : LenderAction := true

def DEFECT : LenderAction := false

/-- The reputation map of a `ReputationTracker` (`HashMap<usize, f64>`),
modelled as a function from peer id to an optional score. -/
def RepMap := Nat → Option ℚ

/-- Strategy state: either a `ReputationTracker` (reputation map plus
`optimistic` flag) or a `RandomStrategy` (draw stream with cursor, the two
probabilities, and the type label). -/
inductive Strat where
  | repTracker (reputations : RepMap) (optimistic : Bool)
  | random (draws : Nat → ℚ) (idx : Nat) (accept_prob coop_prob : ℚ)
      (type_name : String)

namespace Strat

/-- The method `accept_or_reject_request` of the `Strategy` trait: both
variants take `&mut self`, so the embedding returns the decision together
with the strategy state after the call. -/
def accept_or_reject_request : Strat → Nat → BorrowerAction × Strat
  | repTracker reputations optimistic, borrower =>
    (match reputations borrower with
      | some r =>
        if 0 < r ∨ (r = 0 ∧ optimistic = true) then ACCEPT else REJECT
      | none => if optimistic then ACCEPT else REJECT,
     repTracker reputations optimistic)
  | random draws idx accept_prob coop_prob type_name, _ =>
    (decide (draws idx ≤ accept_prob),
     random draws (idx + 1) accept_prob coop_prob type_name)

/-- The method `notify_about_rejection`: a no-op for both variants. -/
def notify_about_rejection : Strat → Nat → Strat
  | repTracker reputations optimistic, _ => repTracker reputations optimistic
  | random draws idx accept_prob coop_prob type_name, _ =>
    random draws idx accept_prob coop_prob type_name

/-- The method `coop_or_defect`: the reputation tracker always cooperates
and adds `borrower_coop_payout` to the lender's score (creating the entry at
that value if absent); the randomized strategy draws and compares against
`coop_prob`. -/
def coop_or_defect : Strat → Nat → LenderAction × Strat
  | repTracker reputations optimistic, lender =>
    match reputations lender with
    | some r =>
      (COOP,
       repTracker
         (fun q => if q = lender then some (r + GP.borrower_coop_payout)
                   else reputations q) optimistic)
    | none =>
      (COOP,
       repTracker
         (fun q => if q = lender then some GP.borrower_coop_payout
                   else reputations q) optimistic)
  | random draws idx accept_prob coop_prob type_name, _ =>
    (decide (draws idx ≤ coop_prob),
     random draws (idx + 1) accept_prob coop_prob type_name)

/-- The method `notify_coop_or_defect`: the reputation tracker adds
`lender_coop_payout` (on cooperation) or `lender_defect_payout` (on
defection) to the borrower's score, creating the entry at that delta if
absent; the randomized strategy ignores the notification. -/
def notify_coop_or_defect : Strat → Nat → BorrowerAction → Strat
  | repTracker reputations optimistic, borrower, coop =>
    let penalty :=
      if coop then GP.lender_coop_payout else GP.lender_defect_payout
    match reputations borrower with
    | some r =>
      repTracker
        (fun q => if q = borrower then some (r + penalty) else reputations q)
        optimistic
    | none =>
      repTracker
        (fun q => if q = borrower then some penalty else reputations q)
        optimistic
  | random draws idx accept_prob coop_prob type_name, _, _ =>
    random draws idx accept_prob coop_prob type_name

/-- Score currently recorded for a given peer, when the strategy is a
reputation tracker. -/
def scoreOf : Strat → Nat → Option ℚ
  | repTracker reputations _, peer => reputations peer
  | random _ _ _ _ _, _ => none

end Strat

/-- An agent: strategy state, energy, id (`struct Agent`). -/
structure Agent where
  strategy : Strat
  energy : ℚ
  id : Nat

/-- An agent definition: a strategy factory paired with a count
(`type AgentDefinition = (fn() -> Box<dyn Strategy>, usize)`). -/
abbrev AgentDefinition := (Unit → Strat) × Nat

/-- The inner loop of `gen_agents` for one definition: `count` agents with
ids `last_id, last_id + 1, ...` and energy 256. -/
def genGroup (factory : Unit → Strat) (count last_id : Nat) : List Agent :=
  (List.range count).map
    (fun i => { strategy := factory (), energy := 256, id := i + last_id })

/-- The loop of `gen_agents`, threading the mutable variables `last_id` and
`id`. After a group of size `count > 0` the source sets
`last_id = id = (count - 1) + last_id` (not `id + 1`); after an empty group
`id`, and hence `last_id`, keeps its previous value. -/
def gen_agents_go : List AgentDefinition → Nat → List Agent
  | [], _ => []
  | (factory, count) :: rest, last_id =>
    genGroup factory count last_id ++
      gen_agents_go rest (if count = 0 then last_id else count - 1 + last_id)

/-- The function `gen_agents`: both mutable variables start at 0. -/
def gen_agents (agent_definitions : List AgentDefinition) : List Agent :=
  gen_agents_go agent_definitions 0

/-- The function `encounter(lender, borrower)`: the lender decides, on
acceptance the borrower decides, the lender is notified, and the two
energies move by the matching payoff pair; on rejection the borrower is
notified and no energy changes. Both agents' post states are returned. -/
def encounter (lender borrower : Agent) : Agent × Agent :=
  let ar := lender.strategy.accept_or_reject_request borrower.id
  if ar.1 = ACCEPT then
    let cd := borrower.strategy.coop_or_defect lender.id
    let ls := ar.2.notify_coop_or_defect borrower.id cd.1
    if cd.1 = COOP then
      ({ lender with
           strategy := ls
           energy := lender.energy + GP.lender_coop_payout },
       { borrower with
           strategy := cd.2
           energy := borrower.energy + GP.borrower_coop_payout })
    else
      ({ lender with
           strategy := ls
           energy := lender.energy + GP.lender_defect_payout },
       { borrower with
           strategy := cd.2
           energy := borrower.energy + GP.borrower_defect_payout })
  else
    ({ lender with strategy := ar.2 },
     { borrower with
         strategy := borrower.strategy.notify_about_rejection lender.id })

/-- One encounter executed inside the population at indices `i` (lender) and
`j` (borrower): the mutable borrows of the source become a read of both
positions followed by two writes. Out-of-range indices leave the population
unchanged (they never occur in the simulation loop). -/
def encounterAt (pop : List Agent) (i j : Nat) : List Agent :=
  match pop[i]?, pop[j]? with
  | some a, some b =>
    let r := encounter a b
    (pop.set i r.1).set j r.2
  | _, _ => pop

/-- The two adjacent encounters the source runs for one pair: agent `a` as
lender toward `b`, then `b` as lender toward `a`. -/
def pairStep (pop : List Agent) (a b : Nat) : List Agent :=
  encounterAt (encounterAt pop a b) b a

/-- The nested pair loop of `simulate` for one round, exactly as in the
source: `for i in 1..len`, `alice` is the agent at `i - 1`, and `bob` runs
over the agents at `i, ..., len - 1`. -/
def runRound (pop : List Agent) : List Agent :=
  let n := pop.length
  ((List.range n).drop 1).foldl
    (fun p i =>
      ((List.range n).drop i).foldl (fun q j => pairStep q (i - 1) j) p)
    pop

/-- The same nested pair loop with the `left.last_mut().unwrap()` of the
source modelled faithfully: the last element of the left split is looked up
as an option, and a failing `unwrap` makes the whole round return `none`. -/
def runRoundChecked (pop : List Agent) : Option (List Agent) :=
  let n := pop.length
  ((List.range n).drop 1).foldlM
    (fun p i =>
      match (p.take i).getLast? with
      | none => none
      | some _ =>
        some (((List.range n).drop i).foldl
          (fun q j => pairStep q (i - 1) j) p))
    pop

/-- The culling step of `simulate`:
`agents.retain(|agent| agent.energy > 0.)`. -/
def cull (pop : List Agent) : List Agent :=
  pop.filter (fun agent => decide (0 < agent.energy))

/-- The round loop of `simulate`: each round runs the pair loop and then
culls; the reporting performed before each round does not touch the
population. -/
def simulate (pop : List Agent) : Nat → List Agent
  | 0 => pop
  | rounds + 1 => simulate (cull (runRound pop)) rounds

/-- Spec-side description of one round's pair order: all index pairs
`(i, j)` with `i < j`, in ascending lexicographic order. -/
def specPairs (n : Nat) : List (Nat × Nat) :=
  (List.range n).flatMap
    (fun a =>
      ((List.range n).filter (fun b => decide (a < b))).map (fun b => (a, b)))

/-- Spec-side description of one round's encounter sequence, as
(lender index, borrower index) pairs: each pair `(i, j)` with `i < j` is run
as `(i, j)` immediately followed by `(j, i)`. -/
def specEncounterSeq (n : Nat) : List (Nat × Nat) :=
  (specPairs n).flatMap (fun p => [(p.1, p.2), (p.2, p.1)])

/-- The (lender index, borrower index) sequence the source loop generates:
`for i in 1..n`, alice is at `i - 1`, bob runs over `i, ..., n - 1`, and each
pair runs `encounter(alice, bob)` then `encounter(bob, alice)`. -/
def srcEncounterSeq (n : Nat) : List (Nat × Nat) :=
  ((List.range n).drop 1).flatMap
    (fun i =>
      ((List.range n).drop i).flatMap (fun j => [(i - 1, j), (j, i - 1)]))

/-- Execution of a list of (lender index, borrower index) encounters. -/
def execSeq (seq : List (Nat × Nat)) (pop : List Agent) : List Agent :=
  seq.foldl (fun q p => encounterAt q p.1 p.2) pop

/-- An empty reputation map, as `ReputationTracker::new` creates it. -/
def demoRepMap : RepMap := fun _ => none

/-- A freshly constructed optimistic reputation tracker. -/
def demoStrat : Strat := Strat.repTracker demoRepMap true

/-- A strategy factory producing fresh optimistic reputation trackers,
as `reptrack` in `main`. -/
def demoFactory : Unit → Strat := fun _ => demoStrat

/-- An agent as produced at population generation. -/
def demoAgent : Agent := { strategy := demoStrat, energy := 256, id := 0 }

theorem drop_range' (i : Nat) :
    ∀ s n, (List.range' s n).drop i = List.range' (s + i) (n - i) := by
  induction i with
  | zero => intro s n; simp
  | succ m ih =>
    intro s n
    cases n with
    | zero => simp
    | succ k =>
      rw [List.range'_succ, List.drop_succ_cons, ih (s + 1) k]
      have h1 : s + 1 + m = s + (m + 1) := by omega
      have h2 : k - m = k + 1 - (m + 1) := by omega
      rw [h1, h2]

theorem drop_range (i n : Nat) :
    (List.range n).drop i = List.range' i (n - i) := by
  rw [List.range_eq_range', drop_range' i 0 n, Nat.zero_add]

theorem filter_lt_range (a : Nat) :
    ∀ n, (List.range n).filter (fun b => decide (a < b))
      = List.range' (a + 1) (n - (a + 1)) := by
  intro n
  induction n with
  | zero => simp
  | succ m ih =>
    rw [List.range_succ, List.filter_append, ih]
    by_cases h : a < m
    · have hm : (a + 1) + (m - (a + 1)) = m := by omega
      have hsub : m + 1 - (a + 1) = (m - (a + 1)) + 1 := by omega
      simp only [List.filter_cons, List.filter_nil, decide_eq_true_eq, if_pos h,
        hsub, List.range'_1_concat, hm]
    · have h1 : m - (a + 1) = 0 := by omega
      have h2 : m + 1 - (a + 1) = 0 := by omega
      simp only [List.filter_cons, List.filter_nil, decide_eq_true_eq, if_neg h,
        h1, h2, List.range'_zero, List.append_nil]

theorem foldl_over_flatMap {α β γ : Type} (f : γ → β → γ) (g : α → List β) :
    ∀ (l : List α) (s : γ),
      (l.flatMap g).foldl f s = l.foldl (fun t a => (g a).foldl f t) s := by
  intro l
  induction l with
  | nil => intro s; rfl
  | cons x xs ih =>
    intro s
    rw [List.flatMap_cons, List.foldl_append, List.foldl_cons, ih]

theorem encounterAt_length (pop : List Agent) (i j : Nat) :
    (encounterAt pop i j).length = pop.length := by
  unfold encounterAt
  cases h1 : pop[i]? <;> cases h2 : pop[j]? <;> simp

theorem pairStep_length (pop : List Agent) (a b : Nat) :
    (pairStep pop a b).length = pop.length := by
  unfold pairStep
  rw [encounterAt_length, encounterAt_length]

theorem foldl_length_inv {α : Type} (f : List Agent → α → List Agent)
    (hf : ∀ q a, (f q a).length = q.length) :
    ∀ (l : List α) (p : List Agent), (l.foldl f p).length = p.length := by
  intro l
  induction l with
  | nil => intro p; rfl
  | cons x xs ih => intro p; rw [List.foldl_cons, ih, hf]

theorem runRoundChecked_aux (n : Nat) :
    ∀ (idxs : List Nat) (p : List Agent), p.length = n →
      (∀ i ∈ idxs, 1 ≤ i ∧ i < n) →
      (idxs.foldlM
        (fun p i =>
          match (p.take i).getLast? with
          | none => none
          | some _ =>
            some (((List.range n).drop i).foldl
              (fun q j => pairStep q (i - 1) j) p))
        p : Option (List Agent))
      = some (idxs.foldl
          (fun p i => ((List.range n).drop i).foldl
            (fun q j => pairStep q (i - 1) j) p) p) := by
  intro idxs
  induction idxs with
  | nil => intro p _ _; rfl
  | cons x xs ih =>
    intro p hp hmem
    have hx := hmem x (by simp)
    have hne : p.take x ≠ [] := by
      apply List.ne_nil_of_length_pos
      rw [List.length_take, lt_min_iff]
      exact ⟨by omega, by omega⟩
    obtain ⟨w, hw⟩ := Option.isSome_iff_exists.mp (List.getLast?_isSome.mpr hne)
    rw [List.foldlM_cons]
    simp only [hw]
    have hlen :
        (((List.range n).drop x).foldl
          (fun q j => pairStep q (x - 1) j) p).length = n := by
      rw [foldl_length_inv _ (fun q j => pairStep_length q (x - 1) j), hp]
    rw [Option.bind_eq_bind, Option.some_bind]
    exact ih _ hlen (fun i hi => hmem i (by simp [hi]))

theorem runRoundChecked_eq (pop : List Agent) :
    runRoundChecked pop = some (runRound pop) := by
  unfold runRoundChecked runRound
  apply runRoundChecked_aux pop.length _ pop rfl
  intro i hi
  rw [drop_range] at hi
  have h := List.mem_range'_1.mp hi
  omega

theorem srcEncounterSeq_body (n a : Nat) :
    ((List.range n).drop (1 + a)).flatMap
        (fun j => [((1 + a) - 1, j), (j, (1 + a) - 1)])
      = ((List.range n).filter (fun b => decide (a < b))).flatMap
          (fun b => [(a, b), (b, a)]) := by
  rw [filter_lt_range, drop_range]
  have h1 : 1 + a = a + 1 := Nat.add_comm 1 a
  rw [h1]
  simp

theorem flatMap_range_succ_of_last_nil {β : Type} (m : Nat) (f : Nat → List β)
    (h : f m = []) :
    (List.range (m + 1)).flatMap f = (List.range m).flatMap f := by
  rw [List.range_succ, List.flatMap_append, List.flatMap_cons, List.flatMap_nil,
    h, List.append_nil, List.append_nil]

theorem srcEncounterSeq_eq_spec (n : Nat) :
    srcEncounterSeq n = specEncounterSeq n := by
  unfold srcEncounterSeq specEncounterSeq specPairs
  rw [List.flatMap_assoc]
  simp only [List.flatMap_map]
  rw [drop_range 1 n, List.range'_eq_map_range, List.flatMap_map]
  cases n with
  | zero => simp
  | succ m =>
    have hblock :
        ((List.range (m + 1)).filter (fun b => decide (m < b))).flatMap
            (fun b => [(m, b), (b, m)]) = [] := by
      rw [filter_lt_range]
      simp
    rw [flatMap_range_succ_of_last_nil m
      (fun x => ((List.range (m + 1)).filter (fun b => decide (x < b))).flatMap
        (fun b => [(x, b), (b, x)])) hblock]
    have hm : m + 1 - 1 = m := rfl
    rw [hm]
    apply congrArg
    funext a
    exact srcEncounterSeq_body (m + 1) a

theorem runRound_eq_exec (pop : List Agent) :
    runRound pop = execSeq (srcEncounterSeq pop.length) pop := by
  unfold runRound execSeq srcEncounterSeq
  rw [foldl_over_flatMap]
  simp only [foldl_over_flatMap, List.foldl_cons, List.foldl_nil]
  rfl

/-- C1: the claim states that agent ids are pairwise distinct in every
population produced by `gen_agents`. The code violates it: the loop sets
`last_id` to the last id used by a group instead of one past it, so the
first agent of every subsequent group reuses the previous group's last id.
With a roster of two entries of count 2 the generated ids are 0, 1, 1, 2,
which are not pairwise distinct. -/
theorem gen_agents_duplicate_ids :
    (gen_agents [(demoFactory, 2), (demoFactory, 2)]).map Agent.id
        = [0, 1, 1, 2] ∧
    ¬ ((gen_agents [(demoFactory, 2), (demoFactory, 2)]).map Agent.id).Nodup :=
  ⟨by decide, by decide⟩

/-- C2 counterexample: a reputation tracker that observes only cooperation
from peer 7 records score -1 after the first `notify_coop_or_defect` call
and -2 after the second, and -1 ≤ -2 is false, so the score is not
non-decreasing across those calls. -/
theorem reputation_coop_score_decreases_cex :
    Strat.scoreOf
        (Strat.notify_coop_or_defect (Strat.repTracker demoRepMap true) 7 true)
        7 = some (-1) ∧
    Strat.scoreOf
        (Strat.notify_coop_or_defect
          (Strat.notify_coop_or_defect (Strat.repTracker demoRepMap true) 7
            true) 7 true) 7 = some (-2) ∧
    ¬ ((-1 : ℚ) ≤ (-2 : ℚ)) := by
  refine ⟨by decide, ?_, by norm_num⟩
  simp [Strat.notify_coop_or_defect, Strat.scoreOf, demoRepMap]
  norm_num [GP]

/-- C2 (amended): under the program's configured payoff constants
(`lender_coop_payout = -1`), each `notify_coop_or_defect` call with
`coop = true` sets peer `p`'s recorded score to its previous value (0 if
absent) plus `lender_coop_payout`, so the score strictly decreases — the
opposite of the claimed non-decreasing behavior. -/
theorem reputation_coop_only_strictly_decreases (reputations : RepMap)
    (optimistic : Bool) (p : Nat) :
    ∃ r', Strat.scoreOf
        (Strat.notify_coop_or_defect (Strat.repTracker reputations optimistic)
          p true) p = some r' ∧
      r' = (reputations p).getD 0 + GP.lender_coop_payout ∧
      r' < (reputations p).getD 0 := by
  refine ⟨(reputations p).getD 0 + GP.lender_coop_payout, ?_, rfl, ?_⟩
  · cases h : reputations p <;>
      simp [Strat.notify_coop_or_defect, Strat.scoreOf, h]
  · have hneg : GP.lender_coop_payout < 0 := by norm_num [GP]
    linarith

/-- C3 (amended): a `RandomStrategy` configured with both probabilities 0
returns Reject from `accept_or_reject_request` and Defect from
`coop_or_defect` for every strictly positive drawn value; it accepts or
cooperates exactly when the drawn value is 0, which the generator's range
[0, 1) contains. -/
theorem random_zero_prob_rejects_positive_draw (draws : Nat → ℚ) (idx : Nat)
    (type_name : String) (peer peer' : Nat) (h : 0 < draws idx) :
    (Strat.accept_or_reject_request
        (Strat.random draws idx 0 0 type_name) peer).1 = REJECT ∧
    (Strat.coop_or_defect
        (Strat.random draws idx 0 0 type_name) peer').1 = DEFECT := by
  constructor <;>
    simp [Strat.accept_or_reject_request, Strat.coop_or_defect, REJECT,
      DEFECT] <;>
    linarith

/-- Witness for the amended C3 theorem at the concrete draw 1/2. -/
theorem random_zero_prob_rejects_positive_draw_witness :
    (Strat.accept_or_reject_request
        (Strat.random (fun _ => (1:ℚ)/2) 0 0 0 "never accept, always defect")
        3).1 = REJECT ∧
    (Strat.coop_or_defect
        (Strat.random (fun _ => (1:ℚ)/2) 0 0 0 "never accept, always defect")
        4).1 = DEFECT :=
  random_zero_prob_rejects_positive_draw (fun _ => (1:ℚ)/2) 0
    "never accept, always defect" 3 4 (by norm_num)

/-- C3 counterexample: 0 is a possible value of the generator (it lies in
[0, 1)), and on the draw 0 a `RandomStrategy` with both probabilities 0
returns Accept and Cooperate, because the source compares with `<=`; so the
strategy does not reject and defect for every possible drawn value. -/
theorem random_zero_prob_accepts_zero_draw_cex :
    ((0:ℚ) ≤ 0 ∧ (0:ℚ) < 1) ∧
    (Strat.accept_or_reject_request
        (Strat.random (fun _ => 0) 0 0 0 "never accept, always defect") 5).1
        = ACCEPT ∧
    (Strat.coop_or_defect
        (Strat.random (fun _ => 0) 0 0 0 "never accept, always defect") 5).1
        = COOP ∧
    ACCEPT ≠ REJECT :=
  ⟨by norm_num, by decide, by decide, by decide⟩

/-- C4: a reputation tracker's `accept_or_reject_request` returns Accept
iff the peer has no recorded score and `optimistic` is true, or the recorded
score is > 0, or the recorded score is 0 and `optimistic` is true; in all
other cases it returns Reject. -/
theorem reputation_accept_iff (reputations : RepMap) (optimistic : Bool)
    (borrower : Nat) :
    (Strat.accept_or_reject_request
        (Strat.repTracker reputations optimistic) borrower).1 = ACCEPT
      ↔ ((reputations borrower = none ∧ optimistic = true) ∨
         (∃ r, reputations borrower = some r ∧ 0 < r) ∨
         (∃ r, reputations borrower = some r ∧ r = 0 ∧ optimistic = true)) := by
  cases h : reputations borrower with
  | none =>
    cases optimistic <;>
      simp [Strat.accept_or_reject_request, h, ACCEPT, REJECT]
  | some r =>
    cases optimistic <;>
      simp [Strat.accept_or_reject_request, h, ACCEPT, REJECT]

/-- C5: in every single encounter, if the lender rejects neither energy
changes; if the lender accepts and the borrower cooperates the energies
move by exactly `lender_coop_payout` and `borrower_coop_payout`; if the
lender accepts and the borrower defects they move by exactly
`lender_defect_payout` and `borrower_defect_payout` — never by any other
amount. -/
theorem encounter_energy_deltas (lender borrower : Agent) :
    (encounter lender borrower).1.energy =
      (if (lender.strategy.accept_or_reject_request borrower.id).1 = ACCEPT
       then
        (if (borrower.strategy.coop_or_defect lender.id).1 = COOP then
          lender.energy + GP.lender_coop_payout
         else lender.energy + GP.lender_defect_payout)
       else lender.energy) ∧
    (encounter lender borrower).2.energy =
      (if (lender.strategy.accept_or_reject_request borrower.id).1 = ACCEPT
       then
        (if (borrower.strategy.coop_or_defect lender.id).1 = COOP then
          borrower.energy + GP.borrower_coop_payout
         else borrower.energy + GP.borrower_defect_payout)
       else borrower.energy) := by
  unfold encounter
  split_ifs <;> simp_all

/-- C6: after a round's encounters, an agent is retained into the next
round iff its energy is strictly positive: an agent whose energy is exactly
0 is removed, and any strictly positive energy (such as 1/10000) is
retained. -/
theorem cull_retains_iff_positive_energy (pop : List Agent) (agent : Agent) :
    agent ∈ simulate pop 1 ↔ agent ∈ runRound pop ∧ 0 < agent.energy := by
  show agent ∈ cull (runRound pop) ↔ _
  simp [cull, List.mem_filter]

/-- C7: within every round, the sequence of encounters the source's nested
loop runs is exactly: for all index pairs (i, j) with i < j in ascending
order, agent i as lender against agent j immediately followed by agent j as
lender against agent i. -/
theorem round_order_matches_spec (pop : List Agent) :
    runRound pop = execSeq (specEncounterSeq pop.length) pop ∧
    srcEncounterSeq pop.length = specEncounterSeq pop.length := by
  refine ⟨?_, srcEncounterSeq_eq_spec pop.length⟩
  rw [runRound_eq_exec, srcEncounterSeq_eq_spec]

/-- C8 counterexample: `accept_or_reject_request` on a `RandomStrategy`
advances the random generator, so the strategy's internal state after the
call differs from the state before it. -/
theorem accept_request_random_state_changes_cex :
    (Strat.accept_or_reject_request
        (Strat.random (fun _ => (1:ℚ)/2) 0 (1/2) (1/2) "random 50/50") 3).2
      ≠ Strat.random (fun _ => (1:ℚ)/2) 0 (1/2) (1/2) "random 50/50" := by
  simp [Strat.accept_or_reject_request]

/-- C8 (amended): `accept_or_reject_request` leaves a reputation tracker's
internal state unchanged; on a `RandomStrategy` it leaves the configuration
(probabilities and label) unchanged but advances the random generator by
one draw. -/
theorem accept_request_state_change (reputations : RepMap) (optimistic : Bool)
    (draws : Nat → ℚ) (idx : Nat) (accept_prob coop_prob : ℚ)
    (type_name : String) (peer peer' : Nat) :
    (Strat.accept_or_reject_request
        (Strat.repTracker reputations optimistic) peer).2
        = Strat.repTracker reputations optimistic ∧
    (Strat.accept_or_reject_request
        (Strat.random draws idx accept_prob coop_prob type_name) peer').2
        = Strat.random draws (idx + 1) accept_prob coop_prob type_name :=
  ⟨rfl, rfl⟩

/-- C9: `simulate` is total for every population: the checked round (with
the `unwrap` on the left split modelled as an option) never fails and
agrees with the total round, rounds over an empty or singleton population
perform no encounters, the round loop over an empty population stays empty
for every round count, and each configured round runs exactly one pair
phase followed by culling. -/
theorem simulate_total_and_unwrap_safe (pop : List Agent) (n : Nat)
    (a : Agent) :
    runRoundChecked pop = some (runRound pop) ∧
    runRound ([] : List Agent) = [] ∧
    runRound [a] = [a] ∧
    simulate ([] : List Agent) n = [] ∧
    simulate pop (n + 1) = simulate (cull (runRound pop)) n := by
  refine ⟨runRoundChecked_eq pop, rfl, rfl, ?_, rfl⟩
  induction n with
  | zero => rfl
  | succ m ih => exact ih

/-- C10: an encounter leaves both participants' ids unchanged, and an
encounter executed at positions i and j of the population leaves every
agent at any other position k untouched. -/
theorem encounter_frame (lender borrower : Agent) (pop : List Agent)
    (i j k : Nat) (hki : k ≠ i) (hkj : k ≠ j) :
    (encounter lender borrower).1.id = lender.id ∧
    (encounter lender borrower).2.id = borrower.id ∧
    (encounterAt pop i j)[k]? = pop[k]? := by
  refine ⟨?_, ?_, ?_⟩
  · by_cases h1 :
        (lender.strategy.accept_or_reject_request borrower.id).1 = ACCEPT
    · by_cases h2 : (borrower.strategy.coop_or_defect lender.id).1 = COOP
      · simp [encounter, h1, h2]
      · simp [encounter, h1, h2]
    · simp [encounter, h1]
  · by_cases h1 :
        (lender.strategy.accept_or_reject_request borrower.id).1 = ACCEPT
    · by_cases h2 : (borrower.strategy.coop_or_defect lender.id).1 = COOP
      · simp [encounter, h1, h2]
      · simp [encounter, h1, h2]
    · simp [encounter, h1]
  · unfold encounterAt
    cases h1 : pop[i]? with
    | none => cases h2 : pop[j]? <;> rfl
    | some x =>
      cases h2 : pop[j]? with
      | none => rfl
      | some y =>
        simp only
        rw [List.getElem?_set_ne (Ne.symm hkj), List.getElem?_set_ne
          (Ne.symm hki)]

/-- Witness for the C10 theorem at concrete population and indices. -/
theorem encounter_frame_witness :
    (encounter demoAgent demoAgent).1.id = demoAgent.id ∧
    (encounter demoAgent demoAgent).2.id = demoAgent.id ∧
    (encounterAt [demoAgent, demoAgent, demoAgent] 0 1)[2]?
      = [demoAgent, demoAgent, demoAgent][2]? :=
  encounter_frame demoAgent demoAgent [demoAgent, demoAgent, demoAgent] 0 1 2
    (by decide) (by decide)
